import Mathlib

/-!
Verification of the ID3v2 tag codec (beevik/id3 style repository).

The development shallowly embeds the v2.4 codec (`src/v24.go`), the
stream-level dispatcher (`src/id3.go`) and the byte-level primitives.
Bytes are modelled as `Nat` values (well-formed inputs have every byte
below 256); byte sequences are `List Nat`.

The byte-level primitives (sync-safe integers, the unsynchronization
transform, the buffered reader) and the reflection-driven frame
scanner/emitter are declared and called by the sources under `src/` but
their defining files are not part of the source snapshot; those
definitions are modelled from the specification and are marked
`Modelled from the spec:` in their doc comments.
-/

/-- Error values of the package, mirroring the `Err*` variables of
`id3.go` and the internal sentinel `errPaddingEncountered` of `v24.go`.
`unexpectedEOF` stands for the sticky error a reader reports when the
underlying stream runs short; `fuelExhausted` is an artifact of the
embedding of the frame loop (never reached when the fuel is at least
the buffer length plus one). -/
inductive Err where
  | invalidTag
  | invalidVersion
  | invalidHeader
  | failedCRC
  | invalidFrameHeader
  | invalidFrameFlags
  | invalidGroupID
  | invalidEncryptMethod
  | invalidEncoding
  | invalidPictureType
  | invalidTimeStampFormat
  | invalidLyricContentType
  | invalidEncodedString
  | badSync
  | unexpectedEOF
  | paddingEncountered
  | fuelExhausted
deriving DecidableEq, Repr

/-! Tag flags, as in the `TagFlags` constants of the v2.4-era `Tag`
(source file defining `TagFlagUnsync TagFlags = 1 << iota` …). -/

def tagFlagUnsync : Nat := 1
def tagFlagExtended : Nat := 2
def tagFlagExperimental : Nat := 4
def tagFlagFooter : Nat := 8
def tagFlagIsUpdate : Nat := 16
def tagFlagHasCRC : Nat := 32
def tagFlagHasRestrictions : Nat := 64

/-! Frame flags. The internal bit values are not in the snapshot;
any family of distinct bits is faithful because `v24.go` only ever maps
them through the `frameFlags` flag map. -/

def frameFlagDiscardOnTagAlteration : Nat := 1
def frameFlagDiscardOnFileAlteration : Nat := 2
def frameFlagReadOnly : Nat := 4
def frameFlagHasGroupID : Nat := 8
def frameFlagCompressed : Nat := 16
def frameFlagEncrypted : Nat := 32
def frameFlagUnsynchronized : Nat := 64
def frameFlagHasDataLength : Nat := 128

/-- Modelled from the spec: a `flagMap` is a bidirectional mapping
between on-wire flag bits and internal flag bits (spec §2 "flag maps";
the `flagMap` method bodies are not in the snapshot). Each entry pairs
a wire bit with an internal bit. -/
def FlagMap := List (Nat × Nat)

/-- Modelled from the spec: decode a wire flag word into the internal
flag word by translating each mapped bit. -/
def FlagMap.decodeFlags (m : FlagMap) (wire : Nat) : Nat :=
  m.foldl (fun acc p => if wire &&& p.1 ≠ 0 then acc ||| p.2 else acc) 0

/-- Modelled from the spec: encode an internal flag word into the wire
flag word by translating each mapped bit. -/
def FlagMap.encodeFlags (m : FlagMap) (internal : Nat) : Nat :=
  m.foldl (fun acc p => if internal &&& p.2 ≠ 0 then acc ||| p.1 else acc) 0

/-- Tag header flag map of `newCodec24` (`v24.go` lines 20-25). -/
def headerFlags24 : FlagMap :=
  [(1 <<< 7, tagFlagUnsync), (1 <<< 6, tagFlagExtended),
   (1 <<< 5, tagFlagExperimental), (1 <<< 4, tagFlagFooter)]

/-- Extended header flag map of `newCodec24` (`v24.go` lines 26-30). -/
def headerExFlags24 : FlagMap :=
  [(1 <<< 6, tagFlagIsUpdate), (1 <<< 5, tagFlagHasCRC),
   (1 <<< 4, tagFlagHasRestrictions)]

/-- Frame header flag map of `newCodec24` (`v24.go` lines 31-40). -/
def frameFlags24 : FlagMap :=
  [(1 <<< 14, frameFlagDiscardOnTagAlteration),
   (1 <<< 13, frameFlagDiscardOnFileAlteration),
   (1 <<< 12, frameFlagReadOnly),
   (1 <<< 6, frameFlagHasGroupID),
   (1 <<< 3, frameFlagCompressed),
   (1 <<< 2, frameFlagEncrypted),
   (1 <<< 1, frameFlagUnsynchronized),
   (1 <<< 0, frameFlagHasDataLength)]

/-! Sync-safe integers (spec §4.1). -/

/-- Modelled from the spec: `decodeSyncSafeUint32` (declared but not
defined in the snapshot). Reject the input if any byte has its top bit
set (`InvalidSyncCode`, the value of `ErrBadSync`); otherwise fold the
low seven bits of each byte, most significant first. `v24.go` also
applies it to the 5-byte CRC field, so the definition accepts any list;
the result is truncated to 32 bits as in the Go `uint32` return type. -/
def decodeSyncSafeUint32 (b : List Nat) : Except Err Nat :=
  if b.any (fun x => x &&& 0x80 ≠ 0) then .error .badSync
  else .ok ((b.foldl (fun acc x => acc * 128 + x) 0) % 4294967296)

/-- Modelled from the spec: `encodeSyncSafeUint32` writing `n` bytes.
Reject a value that does not fit in `7*n` bits (for the 4-byte form
this is the spec's `v ≥ 2^28` rejection); otherwise emit `n` bytes,
each carrying seven payload bits, most significant first. -/
def encodeSyncSafeUint32 (n : Nat) (v : Nat) : Except Err (List Nat) :=
  if v ≥ 2 ^ (7 * n) then .error .badSync
  else .ok ((List.range n).map (fun i => v / 128 ^ (n - 1 - i) % 128))

/-- Back-patching helper: `v24.go` discards the error returned by
`encodeSyncSafeUint32` when patching size and CRC placeholders (lines
386, 411, 423, 490), so an over-large value leaves the zeroed
placeholder bytes in place. -/
def syncSafeOrZeros (n : Nat) (v : Nat) : List Nat :=
  match encodeSyncSafeUint32 n v with
  | .ok bytes => bytes
  | .error _ => List.replicate n 0

/-! Unsynchronization (spec §4.1). -/

/-- Modelled from the spec: `removeUnsyncCodes` (declared but not
defined in the snapshot). Copy bytes, but whenever two consecutive
input bytes are `0xFF 0x00`, emit only the `0xFF` and skip the
`0x00`. -/
def removeUnsyncCodes : List Nat → List Nat
  | [] => []
  | [b] => [b]
  | b :: c :: rest =>
      if b = 0xff ∧ c = 0 then b :: removeUnsyncCodes rest
      else b :: removeUnsyncCodes (c :: rest)

/-- Modelled from the spec: `addUnsyncCodes` (declared but not defined
in the snapshot). Copy bytes; after every `0xFF` whose next byte has
its top bit set (`≥ 0x80`) or does not exist, insert a `0x00`. -/
def addUnsyncCodes : List Nat → List Nat
  | [] => []
  | [b] => if b = 0xff then [b, 0] else [b]
  | b :: c :: rest =>
      if b = 0xff ∧ c ≥ 0x80 then b :: 0 :: addUnsyncCodes (c :: rest)
      else b :: addUnsyncCodes (c :: rest)

/-- A byte sequence contains no `0xFF` byte immediately followed by a
byte with its top bit set (the resynchronization hazard the
unsynchronization transform is meant to remove). -/
def noResyncHazard : List Nat → Prop
  | [] => True
  | [_] => True
  | b :: c :: rest => ¬(b = 0xff ∧ c ≥ 0x80) ∧ noResyncHazard (c :: rest)

instance : DecidablePred noResyncHazard := by
  intro l
  induction l with
  | nil => exact .isTrue trivial
  | cons b t ih =>
    cases t with
    | nil => exact .isTrue trivial
    | cons c rest =>
      unfold noResyncHazard
      exact @instDecidableAnd _ _ _ ih

/-- A byte sequence contains no `0xFF` byte immediately followed by a
`0x00` byte (such sequences are exactly the ones on which
`removeUnsyncCodes` acts as the identity). -/
def noFF00 : List Nat → Prop
  | [] => True
  | [_] => True
  | b :: c :: rest => ¬(b = 0xff ∧ c = 0) ∧ noFF00 (c :: rest)

instance : DecidablePred noFF00 := by
  intro l
  induction l with
  | nil => exact .isTrue trivial
  | cons b t ih =>
    cases t with
    | nil => exact .isTrue trivial
    | cons c rest =>
      unfold noFF00
      exact @instDecidableAnd _ _ _ ih

/-! CRC-32/IEEE, the checksum of Go's `hash/crc32.ChecksumIEEE` used by
`v24.go` (standard reflected CRC-32 with polynomial 0xEDB88320). -/

/-- Process one byte of the reflected CRC-32 (eight shift-xor steps). -/
def crc32Byte (crc b : Nat) : Nat :=
  let step := fun c =>
    if c &&& 1 = 1 then (c >>> 1) ^^^ 0xEDB88320 else c >>> 1
  step (step (step (step (step (step (step (step (crc ^^^ b))))))))

/-- CRC-32/IEEE over a byte sequence. -/
def crc32 (data : List Nat) : Nat :=
  (data.foldl crc32Byte 0xFFFFFFFF) ^^^ 0xFFFFFFFF

instance {e a : Type} [DecidableEq e] [DecidableEq a] : DecidableEq (Except e a) := by
  intro x y
  cases x <;> cases y
  case error.error u v => exact decidable_of_iff (u = v) (by simp)
  case ok.ok u v => exact decidable_of_iff (u = v) (by simp)
  all_goals exact .isFalse (by simp)

theorem spec2proof_basic_check : decodeSyncSafeUint32 [1, 2, 3, 4] = .ok 2130308 := by
  decide

/-! Data model (spec §3; v2.4-era `Tag`, `FrameHeader` definitions). -/

/-- Frame payloads carried by a v2.4 frame. Strings are represented by
their byte content. The snapshot's reflection-driven payload structs
are mirrored by the variants used in this development (spec §3 payload
variants); IDs not covered fall to `unknown`, matching the soft
`Unknown` fallback. `sylt` sync entries pair a text with a
timestamp. -/
inductive FramePayload where
  | text (encoding : Nat) (strs : List (List Nat))
  | priv (owner : List Nat) (data : List Nat)
  | apic (encoding : Nat) (mimeType : List Nat) (pictureType : Nat)
         (description : List Nat) (data : List Nat)
  | sylt (encoding : Nat) (language : List Nat) (timeStampFormat : Nat)
         (contentType : Nat) (descriptor : List Nat)
         (sync : List (List Nat × Nat))
  | grid (owner : List Nat) (groupSymbol : Nat) (data : List Nat)
  | encr (owner : List Nat) (method : Nat) (data : List Nat)
  | unknown (data : List Nat)
deriving DecidableEq, Repr

/-- Frame ID bytes of the frames modelled with a dedicated payload. -/
def idPRIV : List Nat := [80, 82, 73, 86]

def idAPIC : List Nat := [65, 80, 73, 67]

def idSYLT : List Nat := [83, 89, 76, 84]

def idGRID : List Nat := [71, 82, 73, 68]

def idENCR : List Nat := [69, 78, 67, 82]

def idTXXX : List Nat := [84, 88, 88, 88]

def idZZZZ : List Nat := [90, 90, 90, 90]

/-- Modelled from the spec: the frame registry lookup
(`frameTypes.LookupFrameType`, whose `frameTypeMap` implementation is
not in the snapshot). A known frame ID denotes its own frame type; an
unrecognised ID maps to the unknown type, whose canonical ID in the
`newCodec24` table is `ZZZZ`. Text frames are the IDs starting with
`T` (except `TXXX`, not modelled as a dedicated payload here). -/
def isKnown24 (id : List Nat) : Bool :=
  id = idPRIV || id = idAPIC || id = idSYLT || id = idGRID || id = idENCR ||
    (id.length = 4 && id.headD 0 = 84 && id ≠ idTXXX)

/-- Frame type of a frame ID: itself when known, `ZZZZ` otherwise. -/
def lookupFrameType (id : List Nat) : List Nat :=
  if isKnown24 id then id else idZZZZ

/-- A `FrameHeader` (v2.4-era struct): frame ID, payload size, internal
flag word and the optional extra-header values. -/
structure FrameHeader where
  frameID : List Nat
  frameType : List Nat
  size : Nat
  flags : Nat
  groupID : Nat
  encryptMethod : Nat
  dataLength : Nat
deriving DecidableEq, Repr

/-- The all-zero frame header used before decode populates it. -/
def FrameHeader.empty : FrameHeader :=
  ⟨[], [], 0, 0, 0, 0, 0⟩

/-- A frame: header plus payload. -/
structure Frame where
  header : FrameHeader
  payload : FramePayload
deriving DecidableEq, Repr

/-- The v2.4-era `Tag` struct: version, internal flags, size, padding,
CRC, restrictions byte and the ordered frame list. -/
structure Tag where
  Version : Nat
  Flags : Nat
  Size : Nat
  Padding : Nat
  CRC : Nat
  Restrictions : Nat
  Frames : List Frame
deriving DecidableEq, Repr

/-- A zero-initialized tag, as produced by `var tag id3.Tag`. -/
def Tag.empty : Tag := ⟨0, 0, 0, 0, 0, 0, []⟩

/-! The buffered reader (spec §4.2). Its implementation file is not in
the snapshot; the model below follows the spec's contract: `Load`
pulls further bytes from the stream into the buffer (per the `v24.go`
line 132 comment "Load the remaining six bytes", `Load n` fetches `n`
additional bytes), consuming operations short-circuit and return
zeros once the reader is in its sticky error state. -/

/-- Modelled from the spec: the pull-mode byte cursor. `avail` holds
loaded-but-unconsumed bytes, `stream` the not-yet-loaded remainder of
the byte source, `err` the sticky error state. -/
structure Reader where
  avail : List Nat
  stream : List Nat
  err : Bool
deriving DecidableEq, Repr

/-- Modelled from the spec: load `n` further bytes from the stream into
the buffer; a short stream puts the reader into the error state. -/
def Reader.load (r : Reader) (n : Nat) : Reader :=
  if r.err then r
  else if n ≤ r.stream.length then
    { r with avail := r.avail ++ r.stream.take n, stream := r.stream.drop n }
  else { r with err := true }

/-- Modelled from the spec: consume the next `n` buffered bytes; on
underflow (or in the sticky error state) return `n` zero bytes and
record the error. -/
def Reader.consumeBytes (r : Reader) (n : Nat) : List Nat × Reader :=
  if r.err ∨ r.avail.length < n then (List.replicate n 0, { r with err := true })
  else (r.avail.take n, { r with avail := r.avail.drop n })

/-- Modelled from the spec: consume one byte (zero in the error state). -/
def Reader.consumeByte (r : Reader) : Nat × Reader :=
  let (b, r') := r.consumeBytes 1
  (b.headD 0, r')

/-- Modelled from the spec: consume the whole remaining buffer. -/
def Reader.consumeAll (r : Reader) : List Nat × Reader :=
  if r.err then ([], r) else (r.avail, { r with avail := [] })

/-- Modelled from the spec: substitute the remaining buffer (used after
removing unsynchronization codes). -/
def Reader.replaceBuffer (r : Reader) (b : List Nat) : Reader :=
  if r.err then r else { r with avail := b }

/-- Modelled from the spec: carve the next `n` bytes into a bounded
sub-reader, advancing the parent past them. -/
def Reader.consumeIntoNewReader (r : Reader) (n : Nat) :
    Reader × Reader :=
  if r.err ∨ r.avail.length < n then (⟨[], [], true⟩, { r with err := true })
  else (⟨r.avail.take n, [], false⟩, { r with avail := r.avail.drop n })

/-- Modelled from the spec: remaining byte count of the buffer. -/
def Reader.len (r : Reader) : Nat := r.avail.length

/-- Modelled from the spec: view of the remaining buffer (used for the
CRC computation). -/
def Reader.bytes (r : Reader) : List Nat := r.avail

/-! Encoded strings (spec §4.1/§4.5). String content is kept as raw
bytes; the model implements the terminator rules (single NUL for
ISO-8859-1/UTF-8, aligned double NUL for the UTF-16 forms). -/

/-- Split a buffer at its first NUL byte: the content before it and the
remainder after it, or `none` when no terminator exists. -/
def splitAtZero : List Nat → Option (List Nat × List Nat)
  | [] => none
  | 0 :: rest => some ([], rest)
  | b :: rest =>
      match splitAtZero rest with
      | some (s, r) => some (b :: s, r)
      | none => none

/-- Split a buffer at its first aligned double-NUL terminator. -/
def splitAtDoubleZero : List Nat → Option (List Nat × List Nat)
  | 0 :: 0 :: rest => some ([], rest)
  | a :: b :: rest =>
      match splitAtDoubleZero rest with
      | some (s, r) => some (a :: b :: s, r)
      | none => none
  | _ => none

theorem splitAtZero_length {l s rest : List Nat}
    (h : splitAtZero l = some (s, rest)) : rest.length < l.length := by
  induction l using splitAtZero.induct generalizing s rest with
  | case1 => simp [splitAtZero] at h
  | case2 r =>
    simp only [splitAtZero, Option.some.injEq, Prod.mk.injEq] at h
    obtain ⟨hs, hr⟩ := h
    subst hr
    simp
  | case3 b r hb s' r' heq ih =>
    simp only [splitAtZero, heq, Option.some.injEq, Prod.mk.injEq] at h
    obtain ⟨hs, hr⟩ := h
    subst hr
    have := ih heq
    simp only [List.length_cons]
    omega
  | case4 b r hb heq ih =>
    simp only [splitAtZero, heq] at h
    exact Option.noConfusion h

theorem splitAtDoubleZero_length {l s rest : List Nat}
    (h : splitAtDoubleZero l = some (s, rest)) : rest.length < l.length := by
  induction l using splitAtDoubleZero.induct generalizing s rest with
  | case1 r =>
    simp only [splitAtDoubleZero, Option.some.injEq, Prod.mk.injEq] at h
    obtain ⟨hs, hr⟩ := h
    subst hr
    simp only [List.length_cons]
    omega
  | case2 a b t hne s' r' heq ih =>
    simp only [splitAtDoubleZero, heq, Option.some.injEq, Prod.mk.injEq] at h
    obtain ⟨hs, hr⟩ := h
    subst hr
    have := ih heq
    simp only [List.length_cons]
    omega
  | case3 a b t hne heq ih =>
    simp only [splitAtDoubleZero, heq] at h
    exact Option.noConfusion h
  | case4 t hne1 hne2 =>
    cases t with
    | nil => simp [splitAtDoubleZero] at h
    | cons x u =>
      cases u with
      | nil => simp [splitAtDoubleZero] at h
      | cons y v => exact absurd rfl (fun heq => hne2 x y v heq)

/-- Modelled from the spec: consume a null-terminated encoded string
(the terminator width follows the encoding); a missing terminator is an
invalid encoded string and puts the reader in the error state. -/
def Reader.consumeNextString (r : Reader) (enc : Nat) :
    Except Err (List Nat) × Reader :=
  if r.err then (.error .unexpectedEOF, r)
  else
    match (if enc = 1 ∨ enc = 2 then splitAtDoubleZero r.avail
           else splitAtZero r.avail) with
    | some (s, rest) => (.ok s, { r with avail := rest })
    | none => (.error .invalidEncodedString, { r with err := true })

/-- Modelled from the spec: consume a fixed-length string with no
terminator (used for the 3-byte language tag). -/
def Reader.consumeFixedLengthString (r : Reader) (n : Nat) :
    Except Err (List Nat) × Reader :=
  let (b, r') := r.consumeBytes n
  if r'.err then (.error .unexpectedEOF, r') else (.ok b, r')

/-- Split a whole buffer into strings on single-NUL terminators; a
trailing segment without a terminator is kept as a final string. -/
def splitStrings0 (l : List Nat) : List (List Nat) :=
  if l = [] then []
  else
    match h : splitAtZero l with
    | some (s, rest) => s :: splitStrings0 rest
    | none => [l]
termination_by l.length
decreasing_by exact splitAtZero_length h

/-- Split a whole buffer into strings on aligned double-NUL
terminators; a trailing segment without a terminator is kept. -/
def splitStringsW (l : List Nat) : List (List Nat) :=
  if l = [] then []
  else
    match h : splitAtDoubleZero l with
    | some (s, rest) => s :: splitStringsW rest
    | none => [l]
termination_by l.length
decreasing_by exact splitAtDoubleZero_length h

/-- Modelled from the spec: split the remaining buffer into the
multi-string list of a v2.4 text frame. -/
def splitStrings (enc : Nat) (l : List Nat) : List (List Nat) :=
  if enc = 1 ∨ enc = 2 then splitStringsW l else splitStrings0 l

/-- Big-endian byte fold (the `scanUint32` accumulation). -/
def beBytesToNat (b : List Nat) : Nat :=
  b.foldl (fun acc x => acc * 256 + x) 0

/-! The frame-schema scanner. `v24.go` invokes it through
`newReflector(Version2_4, c.vdata).ScanFrame(r, h.FrameID)`; the
reflector implementation is not in the snapshot. -/

/-- Bounds table of `newCodec24` (`v24.go` lines 41-48): field type
name, inclusive range and the kind-specific error. -/
def boundsMap24 : List (String × (Nat × Nat × Err)) :=
  [("Encoding", (0, 3, .invalidEncoding)),
   ("EncryptMethod", (0x80, 0xf0, .invalidEncryptMethod)),
   ("GroupID", (0x80, 0xf0, .invalidGroupID)),
   ("LyricContentType", (0, 8, .invalidLyricContentType)),
   ("PictureType", (0, 20, .invalidPictureType)),
   ("TimeStampFormat", (1, 2, .invalidTimeStampFormat))]

/-- Modelled from the spec: scan one byte-sized field; when the field
type appears in the bounds table, an out-of-range value fails with the
table's kind-specific error (spec §4.5 "Byte" fields). -/
def scanUint8Bounded (r : Reader) (name : String) : Except Err Nat × Reader :=
  let (v, r') := r.consumeByte
  if r'.err then (.error .unexpectedEOF, r')
  else
    match boundsMap24.lookup name with
    | some (lo, hi, e) =>
        if v < lo ∨ v > hi then (.error e, r') else (.ok v, r')
    | none => (.ok v, r')

/-- A v2.4 text-frame ID: four characters starting with `T`, except
`TXXX`. -/
def isTextFrameID (id : List Nat) : Bool :=
  id.length = 4 && id.headD 0 = 84 && id ≠ idTXXX

/-- Modelled from the spec: scan the synchronized-lyrics entries
(`SYLT` struct list; spec §4.5 "StructList"): repeatedly an encoded
text then a 4-byte big-endian timestamp, until the buffer drains. The
fuel argument bounds the recursion; each entry consumes at least one
byte, so fuel equal to the buffer length suffices. -/
def scanSyncEntries (enc : Nat) : Nat → Reader → Except Err (List (List Nat × Nat))
  | 0, r => if r.len = 0 then .ok [] else .error .unexpectedEOF
  | fuel + 1, r =>
    if r.len = 0 then .ok []
    else
      match r.consumeNextString enc with
      | (.error e, _) => .error e
      | (.ok txt, r1) =>
        let (b, r2) := r1.consumeBytes 4
        if r2.err then .error .unexpectedEOF
        else
          match scanSyncEntries enc fuel r2 with
          | .error e => .error e
          | .ok rest => .ok ((txt, beBytesToNat b) :: rest)

/-- Modelled from the spec: the frame-schema scanner
(`reflector.ScanFrame`). Keyed by frame ID, it walks the payload's
field list (spec §3 payload variants, §4.5 field kinds), threading the
encoding state set by the `Encoding` field. IDs without a dedicated
schema fall to the `Unknown` payload, which consumes all remaining
bytes. -/
def scanFrame24 (r : Reader) (frameID : List Nat) : Except Err FramePayload :=
  if r.err then .error .unexpectedEOF
  else if isTextFrameID frameID then
    match scanUint8Bounded r "Encoding" with
    | (.error e, _) => .error e
    | (.ok enc, r1) =>
      let (b, _) := r1.consumeAll
      .ok (.text enc (splitStrings enc b))
  else if frameID = idPRIV then
    match r.consumeNextString 0 with
    | (.error e, _) => .error e
    | (.ok owner, r1) =>
      let (d, _) := r1.consumeAll
      .ok (.priv owner d)
  else if frameID = idAPIC then
    match scanUint8Bounded r "Encoding" with
    | (.error e, _) => .error e
    | (.ok enc, r1) =>
      match r1.consumeNextString 0 with
      | (.error e, _) => .error e
      | (.ok mime, r2) =>
        match scanUint8Bounded r2 "PictureType" with
        | (.error e, _) => .error e
        | (.ok pt, r3) =>
          match r3.consumeNextString enc with
          | (.error e, _) => .error e
          | (.ok desc, r4) =>
            let (d, _) := r4.consumeAll
            .ok (.apic enc mime pt desc d)
  else if frameID = idSYLT then
    match scanUint8Bounded r "Encoding" with
    | (.error e, _) => .error e
    | (.ok enc, r1) =>
      match r1.consumeFixedLengthString 3 with
      | (.error e, _) => .error e
      | (.ok lang, r2) =>
        match scanUint8Bounded r2 "TimeStampFormat" with
        | (.error e, _) => .error e
        | (.ok tsf, r3) =>
          match scanUint8Bounded r3 "LyricContentType" with
          | (.error e, _) => .error e
          | (.ok ct, r4) =>
            match r4.consumeNextString enc with
            | (.error e, _) => .error e
            | (.ok descr, r5) =>
              match scanSyncEntries enc r5.len r5 with
              | .error e => .error e
              | .ok sync => .ok (.sylt enc lang tsf ct descr sync)
  else if frameID = idGRID then
    match r.consumeNextString 0 with
    | (.error e, _) => .error e
    | (.ok owner, r1) =>
      match scanUint8Bounded r1 "GroupID" with
      | (.error e, _) => .error e
      | (.ok sym, r2) =>
        let (d, _) := r2.consumeAll
        .ok (.grid owner sym d)
  else if frameID = idENCR then
    match r.consumeNextString 0 with
    | (.error e, _) => .error e
    | (.ok owner, r1) =>
      match scanUint8Bounded r1 "EncryptMethod" with
      | (.error e, _) => .error e
      | (.ok m, r2) =>
        let (d, _) := r2.consumeAll
        .ok (.encr owner m d)
  else
    let (d, _) := r.consumeAll
    .ok (.unknown d)

/-! The v2.4 frame decoder (`codec24.decodeFrame`, `v24.go` lines
248-348). The function advances the caller's reader past the whole
frame and works on a carved sub-reader; it returns the decoded frame or
the error, together with the advanced parent reader. -/

/-- Decode one v2.4 frame (`v24.go` lines 248-348). `tflags` is the
containing tag's flag word (only its `Unsync` bit is consulted). -/
def decodeFrame24 (tflags : Nat) (r0 : Reader) : Except Err Frame × Reader :=
  let (id, r1) := r0.consumeBytes 4
  if r1.err then (.error .unexpectedEOF, r1)
  else if id = [0, 0, 0, 0] then (.error .paddingEncountered, r1)
  else
    let (hd, r2) := r1.consumeBytes 6
    if r2.err then (.error .unexpectedEOF, r2)
    else
      match decodeSyncSafeUint32 (hd.take 4) with
      | .error e => (.error e, r2)
      | .ok size =>
        if size < 1 then (.error .invalidFrameHeader, r2)
        else
          let flags := frameFlags24.decodeFlags ((hd.getD 4 0) <<< 8 ||| hd.getD 5 0)
          let h : FrameHeader :=
            { frameID := id, frameType := [], size := size, flags := flags,
              groupID := 0, encryptMethod := 0, dataLength := 0 }
          let (sub, rP) := r2.consumeIntoNewReader size
          let sub :=
            if flags &&& frameFlagUnsynchronized ≠ 0 ∧ tflags &&& tagFlagUnsync = 0 then
              let (b, s1) := sub.consumeAll
              s1.replaceBuffer (removeUnsyncCodes b)
            else sub
          match
            (if flags ≠ 0 then
              if flags &&& frameFlagCompressed ≠ 0 ∧ flags &&& frameFlagHasDataLength = 0 then
                .error .invalidFrameFlags
              else
                let step1 : Except Err (FrameHeader × Reader) :=
                  if flags &&& frameFlagHasGroupID ≠ 0 then
                    let (gid, s1) := sub.consumeByte
                    if s1.err then .error .unexpectedEOF
                    else if gid < 0x80 ∨ gid > 0xf0 then .error .invalidGroupID
                    else .ok ({ h with groupID := gid }, s1)
                  else .ok (h, sub)
                match step1 with
                | .error e => .error e
                | .ok (h, sub) =>
                  let step2 : Except Err (FrameHeader × Reader) :=
                    if flags &&& frameFlagEncrypted ≠ 0 then
                      let (em, s1) := sub.consumeByte
                      if s1.err then .error .unexpectedEOF
                      else if em < 0x80 ∨ em > 0xf0 then .error .invalidEncryptMethod
                      else .ok ({ h with encryptMethod := em }, s1)
                    else .ok (h, sub)
                  match step2 with
                  | .error e => .error e
                  | .ok (h, sub) =>
                    if flags &&& frameFlagHasDataLength ≠ 0 then
                      let (b, s1) := sub.consumeBytes 4
                      if s1.err then .error .invalidFrameHeader
                      else
                        match decodeSyncSafeUint32 b with
                        | .error e => .error e
                        | .ok dl => .ok ({ h with dataLength := dl }, s1)
                    else .ok (h, sub)
            else .ok (h, sub) : Except Err (FrameHeader × Reader))
          with
          | .error e => (.error e, rP)
          | .ok (h, sub) =>
            match scanFrame24 sub h.frameID with
            | .error e => (.error e, rP)
            | .ok payload =>
              let h := { h with frameType := lookupFrameType h.frameID }
              (.ok ⟨h, payload⟩, rP)

/-- The frame loop of `codec24.Decode` (`v24.go` lines 226-243): while
the buffer is non-empty decode a frame; the padding sentinel records
the remaining length plus four as the tag's padding, consumes the rest
and stops without error; any other error aborts; a decoded frame is
appended. The fuel bounds the recursion (a successful frame consumes
at least eleven bytes, so buffer length plus one suffices). -/
def frameLoop24 (tflags : Nat) : Nat → Tag → Reader → Tag × Option Err
  | 0, t, r => if r.len > 0 then (t, some .fuelExhausted) else (t, none)
  | fuel + 1, t, r =>
    if r.len = 0 then (t, none)
    else
      match decodeFrame24 tflags r with
      | (.error .paddingEncountered, r') => ({ t with Padding := r'.len + 4 }, none)
      | (.error e, _) => (t, some e)
      | (.ok f, r') => frameLoop24 tflags fuel { t with Frames := t.Frames ++ [f] } r'

/-- Phases of `codec24.Decode` before CRC validation (`v24.go` lines
131-216): header fields, tag size, loading the tag body, the global
unsynchronization pass, and the extended header. Returns the partially
populated tag and the reader positioned at the frames region, or the
tag as populated so far together with the error. -/
def preFrames24 (t0 : Tag) (r0 : Reader) : Tag × Reader × Option Err :=
  let r := r0.load 6
  if r.err then (t0, r, some .unexpectedEOF)
  else
    let (hdr, r) := r.consumeBytes 10
    if hdr.getD 4 0 ≠ 0 then (t0, r, some .invalidTag)
    else
      let t := { t0 with Flags := headerFlags24.decodeFlags (hdr.getD 5 0) }
      match decodeSyncSafeUint32 (hdr.drop 6) with
      | .error e => (t, r, some e)
      | .ok size =>
        let t := { t with Size := size }
        let r := r.load size
        if r.err then (t, r, some .unexpectedEOF)
        else
          let r :=
            if t.Flags &&& tagFlagUnsync ≠ 0 then
              let (b, r1) := r.consumeAll
              r1.replaceBuffer (removeUnsyncCodes b)
            else r
          if t.Flags &&& tagFlagExtended ≠ 0 then
            let (exb, r) := r.consumeBytes 4
            match decodeSyncSafeUint32 exb with
            | .error e => (t, r, some e)
            | .ok exSize =>
              let (exFlagsSize, r) := r.consumeByte
              if exFlagsSize ≠ 1 then (t, r, some .invalidHeader)
              else
                let (exFlags, r) := r.consumeByte
                let t := { t with Flags := t.Flags ||| headerExFlags24.decodeFlags exFlags }
                let exConsumed := 6
                let (exConsumed, r) :=
                  if t.Flags &&& tagFlagIsUpdate ≠ 0 then
                    let (_, r) := r.consumeByte
                    (exConsumed + 1, r)
                  else (exConsumed, r)
                let crcStep : Except Err (Tag × Nat × Reader) :=
                  if t.Flags &&& tagFlagHasCRC ≠ 0 then
                    let (data, r) := r.consumeBytes 6
                    if data.getD 0 0 ≠ 5 then .error .invalidHeader
                    else
                      match decodeSyncSafeUint32 (data.drop 1) with
                      | .error _ => .error .invalidHeader
                      | .ok crc => .ok ({ t with CRC := crc }, exConsumed + 6, r)
                  else .ok (t, exConsumed, r)
                match crcStep with
                | .error e => (t, r, some e)
                | .ok (t, exConsumed, r) =>
                  let restStep : Except Err (Tag × Nat × Reader) :=
                    if t.Flags &&& tagFlagHasRestrictions ≠ 0 then
                      let (lenByte, r) := r.consumeByte
                      if lenByte ≠ 1 then .error .invalidHeader
                      else
                        let (rb, r) := r.consumeByte
                        .ok ({ t with Restrictions := rb }, exConsumed + 2, r)
                    else .ok (t, exConsumed, r)
                  match restStep with
                  | .error e => (t, r, some e)
                  | .ok (t, exConsumed, r) =>
                    let r :=
                      if exConsumed < exSize then (r.consumeBytes (exSize - exConsumed)).2
                      else r
                    if r.err then (t, r, some .unexpectedEOF)
                    else (t, r, none)
          else (t, r, none)

/-- Decode a v2.4 tag (`codec24.Decode`, `v24.go` lines 131-246): the
pre-frame phases, then CRC validation, then the frame loop. The
returned tag carries every field populated before a failure, matching
the in-place mutation of the Go receiver. -/
def codec24Decode (t0 : Tag) (r0 : Reader) : Tag × Option Err :=
  match preFrames24 t0 r0 with
  | (t, _, some e) => (t, some e)
  | (t, r, none) =>
    if t.Flags &&& tagFlagHasCRC ≠ 0 ∧ crc32 r.bytes ≠ t.CRC then (t, some .failedCRC)
    else frameLoop24 t.Flags (r.len + 1) t r

/-- Decode a v2.4 tag from a full byte stream. `codec24.Decode` is
entered with the first four stream bytes (`"ID3"` and the version) in
the reader's buffer, so that `ConsumeBytes(10)` yields the whole wire
header (`v24.go` lines 131-141). -/
def decode24 (input : List Nat) (t0 : Tag) : Tag × Option Err :=
  codec24Decode t0 ⟨input.take 4, input.drop 4, false⟩

/-! The v2.4 encoder (`codec24.Encode` / `codec24.encodeFrame`,
`v24.go` lines 350-510). The Go code stages bytes in a writer and
back-patches placeholders; every patch of `encodeFrame` lies inside
the bytes that same call appended, so the frame encoder is modelled as
a pure function from the frame to its wire bytes, with the patches
applied at their (local) offsets. -/

/-- String terminator for an encoding (double NUL for the UTF-16
forms, single NUL otherwise). -/
def terminator (enc : Nat) : List Nat :=
  if enc = 1 ∨ enc = 2 then [0, 0] else [0]

/-- Join a string list with terminators between consecutive strings. -/
def joinStrings (enc : Nat) : List (List Nat) → List Nat
  | [] => []
  | [s] => s
  | s :: rest => s ++ terminator enc ++ joinStrings enc rest

/-- Big-endian 4-byte encoding (the `scanUint32` inverse). -/
def beU32 (v : Nat) : List Nat :=
  [v / 16777216 % 256, v / 65536 % 256, v / 256 % 256, v % 256]

/-- Modelled from the spec: the frame-schema emitter
(`reflector.OutputFrame`). For each payload variant it emits the
fields in schema order, computing the string terminators, and returns
the frame ID to be patched into the frame header. For the payloads
whose ID is not determined by the variant (text frames, unknown
frames) the ID recorded in the frame's header is used. -/
def outputFrame24 (f : Frame) : List Nat × List Nat :=
  match f.payload with
  | .text enc strs => (f.header.frameID, enc :: joinStrings enc strs)
  | .priv owner data => (idPRIV, owner ++ [0] ++ data)
  | .apic enc mime pt desc data =>
      (idAPIC, enc :: (mime ++ [0] ++ [pt] ++ desc ++ terminator enc ++ data))
  | .sylt enc lang tsf ct descr sync =>
      (idSYLT, enc :: (lang.take 3 ++ [tsf, ct] ++ descr ++ terminator enc ++
        (sync.map (fun p => p.1 ++ terminator enc ++ beU32 p.2)).flatten))
  | .grid owner sym data => (idGRID, owner ++ [0] ++ [sym] ++ data)
  | .encr owner m data => (idENCR, owner ++ [0] ++ [m] ++ data)
  | .unknown data => (f.header.frameID, data)

/-- Encode one v2.4 frame (`codec24.encodeFrame`, `v24.go` lines
430-510). Returns the frame with its header updated as the Go code
updates the header obtained from `HeaderOf` (flags forced, frame ID,
frame type and size recomputed), together with the frame's wire
bytes. The group-ID and encrypt-method range checks assign `w.err` in
sequence, so when both fail the encrypt-method error is the one
returned; the data-length and size patches discard the
`encodeSyncSafeUint32` error, leaving zeros for oversized values. On
the frame-level unsynchronization branch the Go code applies
`removeUnsyncCodes` to the staged bytes after the 10-byte frame
header; the model reproduces exactly that. -/
def encodeFrame24 (tflags : Nat) (f : Frame) : Except Err (Frame × List Nat) :=
  let h := f.header
  let hflags :=
    if h.flags &&& frameFlagCompressed ≠ 0 then h.flags ||| frameFlagHasDataLength
    else h.flags
  let wflags := frameFlags24.encodeFlags hflags
  let gErr : Option Err :=
    if hflags &&& frameFlagHasGroupID ≠ 0 ∧ (h.groupID < 0x80 ∨ h.groupID > 0xf0) then
      some .invalidGroupID
    else none
  let eErr : Option Err :=
    if hflags &&& frameFlagEncrypted ≠ 0 ∧ (h.encryptMethod < 0x80 ∨ h.encryptMethod > 0xf0) then
      some .invalidEncryptMethod
    else none
  match (match eErr with | some e => some e | none => gErr) with
  | some e => .error e
  | none =>
    let preExtras :=
      (if hflags &&& frameFlagHasGroupID ≠ 0 then [h.groupID] else []) ++
      (if hflags &&& frameFlagEncrypted ≠ 0 then [h.encryptMethod] else [])
    let (fid, payload) := outputFrame24 f
    let extras :=
      if hflags &&& frameFlagHasDataLength ≠ 0 then
        preExtras ++ syncSafeOrZeros 4 payload.length
      else preExtras
    let body := extras ++ payload
    let body :=
      if hflags &&& frameFlagUnsynchronized ≠ 0 ∧ tflags &&& tagFlagUnsync = 0 then
        removeUnsyncCodes body
      else body
    let h' := { h with frameID := fid, frameType := lookupFrameType fid,
                       size := body.length, flags := hflags }
    .ok ({ f with header := h' }, fid ++ syncSafeOrZeros 4 body.length ++
          [wflags >>> 8 &&& 0xff, wflags &&& 0xff] ++ body)

/-- Encode the frame sequence in order (the loop of `codec24.Encode`,
`v24.go` lines 389-395), stopping at the first error. -/
def encodeFrames24 (tflags : Nat) : List Frame → Except Err (List Frame × List Nat)
  | [] => .ok ([], [])
  | f :: fs =>
    match encodeFrame24 tflags f with
    | .error e => .error e
    | .ok (f', bytes) =>
      match encodeFrames24 tflags fs with
      | .error e => .error e
      | .ok (fs', rest) => .ok (f' :: fs', bytes ++ rest)

/-- The extended header bytes of `codec24.Encode` (`v24.go` lines
362-387) for a given final CRC value: four sync-safe size bytes, the
flag-byte count `1`, the wire extended-flag byte, then the update,
CRC and restrictions sub-blocks demanded by the flags. The Go code
stages a zeroed CRC placeholder and back-patches it at lines 407-412;
the size patch at line 386 precedes the CRC patch and is unaffected
by it, so building the block with the final CRC value is exact. -/
def exHeader24 (flags restrictions crc : Nat) : List Nat :=
  if flags &&& tagFlagExtended ≠ 0 then
    let exFlags := headerExFlags24.encodeFlags flags
    let tail :=
      [1, exFlags] ++
      (if flags &&& tagFlagIsUpdate ≠ 0 then [0] else []) ++
      (if flags &&& tagFlagHasCRC ≠ 0 then 5 :: syncSafeOrZeros 5 crc else []) ++
      (if flags &&& tagFlagHasRestrictions ≠ 0 then [1, restrictions] else [])
    syncSafeOrZeros 4 (tail.length + 4) ++ tail
  else []

/-- Encode a v2.4 tag (`codec24.Encode`, `v24.go` lines 350-428).
Returns the tag as mutated by the encoder (extended flag forced,
padding promoted, CRC and size recomputed) and the wire bytes. -/
def encode24 (t : Tag) : Except Err (Tag × List Nat) :=
  let flags :=
    if t.Flags &&& (tagFlagHasCRC ||| tagFlagHasRestrictions ||| tagFlagIsUpdate) ≠ 0 then
      t.Flags ||| tagFlagExtended
    else t.Flags
  let wflags := headerFlags24.encodeFlags flags
  match encodeFrames24 flags t.Frames with
  | .error e => .error e
  | .ok (frames', fb) =>
    let padding := if t.Padding > 0 ∧ t.Padding < 4 then 4 else t.Padding
    let pb := List.replicate padding 0
    let crc := crc32 (fb ++ pb)
    let crcFinal := if flags &&& tagFlagHasCRC ≠ 0 then crc else t.CRC
    let body := exHeader24 flags t.Restrictions crc ++ fb ++ pb
    let body := if flags &&& tagFlagUnsync ≠ 0 then addUnsyncCodes body else body
    let size := body.length
    .ok ({ t with Flags := flags, Frames := frames', Padding := padding,
                  CRC := crcFinal, Size := size },
         [73, 68, 51, 4, 0, wflags] ++ syncSafeOrZeros 4 size ++ body)

/-! The stream-level dispatcher of `id3.go` (the revision using
`io.Reader` directly): `getCodec`, `Tag.ReadFrom`, `Tag.WriteTo`. The
byte source is modelled as the list of byte slices successive `Read`
calls deliver; the version codecs of this revision are not in the
snapshot, so `ReadFrom` and `WriteTo` are parametric in the codec's
decode and encode continuations. -/

/-- The three version codecs selected by `getCodec`. -/
inductive Codec where
  | v22
  | v23
  | v24c
deriving DecidableEq, Repr

/-- Outcome of a `ReadFrom` or `WriteTo` call: a Go panic, or a normal
return of a byte count and an optional error. -/
inductive CallResult where
  | panicked
  | ret (n : Nat) (e : Option Err)
deriving DecidableEq, Repr

/-- `getCodec` (`id3.go` lines 41-52). The `default` branch executes
`panic("invalid codec version")`; it is modelled by `none`. -/
def getCodec (v : Nat) : Option Codec :=
  if v = 2 then some .v22
  else if v = 3 then some .v23
  else if v = 4 then some .v24c
  else none

/-- `Tag.ReadFrom` (`id3.go` lines 56-103). One `Read` call fills the
10-byte header buffer from the source's first slice (truncated to 10
bytes); a short count fails with `ErrInvalidTag`. Then the `"ID3"`
magic, the version byte (2..4), the zero sub-minor byte, the flag
byte, the sync-safe size are processed, and the version codec decodes
the remainder. `dec` abstracts `codec.decode` (not in the snapshot for
this revision); it receives the selected codec, whether an
unsynchronizing reader wraps the source, and the remaining slices. -/
def readFrom (dec : Codec → Bool → List (List Nat) → Nat × Option Err)
    (chunks : List (List Nat)) : CallResult :=
  let c := chunks.headD []
  let n := min c.length 10
  if n < 10 then .ret n (some .invalidTag)
  else
    let hdr := c.take 10
    if hdr.take 3 ≠ [73, 68, 51] then .ret n (some .invalidTag)
    else
      let version := hdr.getD 3 0
      if version < 2 ∨ version > 4 then .ret n (some .invalidVersion)
      else if hdr.getD 4 0 ≠ 0 then .ret n (some .invalidVersion)
      else
        let unsync := hdr.getD 5 0 &&& 0x80 ≠ 0
        match decodeSyncSafeUint32 ((hdr.drop 6).take 4) with
        | .error e => .ret n (some e)
        | .ok _ =>
          match getCodec version with
          | none => .panicked
          | some codec =>
            let (m, e) := dec codec unsync (chunks.drop 1)
            .ret (n + m) e

/-- `Tag.WriteTo` (`id3.go` lines 107-141). The codec is selected by
`getCodec` before anything else and without validating `t.Version`.
`enc` abstracts `codec.encode` together with the optional
unsynchronizing writer (neither is in the snapshot for this revision);
it returns the size reported by the codec and the staged body bytes. -/
def writeTo (enc : Codec → Tag → Except Err (Nat × List Nat)) (t : Tag) :
    CallResult :=
  match getCodec t.Version with
  | none => .panicked
  | some codec =>
    match enc codec t with
    | .error e => .ret 0 (some e)
    | .ok (size, body) =>
      match encodeSyncSafeUint32 4 size with
      | .error e => .ret 0 (some e)
      | .ok _ => .ret (10 + body.length) none

/-! Properties of the unsynchronization transform (claim C3). -/

theorem addUnsyncCodes_cons (x : Nat) (r : List Nat) :
    ∃ t, addUnsyncCodes (x :: r) = x :: t := by
  cases r with
  | nil =>
    by_cases h : x = 255
    · exact ⟨[0], by simp [addUnsyncCodes, h]⟩
    · exact ⟨[], by simp [addUnsyncCodes, h]⟩
  | cons c rest =>
    by_cases h : x = 255 ∧ c ≥ 128
    · exact ⟨0 :: addUnsyncCodes (c :: rest), by simp [addUnsyncCodes, h]⟩
    · exact ⟨addUnsyncCodes (c :: rest), by simp [addUnsyncCodes, h]⟩

theorem remove_add_of_noFF00 (s : List Nat) :
    noFF00 s → removeUnsyncCodes (addUnsyncCodes s) = s := by
  induction s using addUnsyncCodes.induct with
  | case1 => intro _; rfl
  | case2 => intro _; decide
  | case3 b hb => intro _; simp [addUnsyncCodes, hb, removeUnsyncCodes]
  | case4 b c rest hcond ih =>
    intro h
    obtain ⟨hb, hc⟩ := hcond
    subst hb
    simp only [noFF00] at h
    have hadd : addUnsyncCodes (255 :: c :: rest) =
        255 :: 0 :: addUnsyncCodes (c :: rest) := by
      simp [addUnsyncCodes, hc]
    have hstep : removeUnsyncCodes (255 :: 0 :: addUnsyncCodes (c :: rest)) =
        255 :: removeUnsyncCodes (addUnsyncCodes (c :: rest)) := by
      simp [removeUnsyncCodes]
    rw [hadd, hstep, ih h.2]
  | case5 b c rest hcond ih =>
    intro h
    simp only [noFF00] at h
    obtain ⟨t, ht⟩ := addUnsyncCodes_cons c rest
    simp only [addUnsyncCodes, hcond, ite_false, if_neg hcond]
    rw [ht]
    have hstep : removeUnsyncCodes (b :: c :: t) = b :: removeUnsyncCodes (c :: t) := by
      simp [removeUnsyncCodes, h.1]
    rw [hstep, ← ht, ih h.2]

theorem noResyncHazard_add (s : List Nat) : noResyncHazard (addUnsyncCodes s) := by
  induction s using addUnsyncCodes.induct with
  | case1 => trivial
  | case2 => decide
  | case3 b hb => simp [addUnsyncCodes, hb, noResyncHazard]
  | case4 b c rest hcond ih =>
    obtain ⟨hb, hc⟩ := hcond
    subst hb
    obtain ⟨t, ht⟩ := addUnsyncCodes_cons c rest
    have hadd : addUnsyncCodes (255 :: c :: rest) =
        255 :: 0 :: addUnsyncCodes (c :: rest) := by
      simp [addUnsyncCodes, hc]
    rw [hadd, ht]
    rw [ht] at ih
    simp [noResyncHazard, ih]
  | case5 b c rest hcond ih =>
    obtain ⟨t, ht⟩ := addUnsyncCodes_cons c rest
    have hadd : addUnsyncCodes (b :: c :: rest) =
        b :: addUnsyncCodes (c :: rest) := by
      simp [addUnsyncCodes, hcond]
    rw [hadd, ht]
    rw [ht] at ih
    simp [noResyncHazard, ih, hcond]

/-! Bit-level helper lemmas and the sync-safe properties (claim C2). -/

theorem and128_eq_zero {x : Nat} (h : x < 128) : x &&& 128 = 0 := by
  have : (128 : Nat) = 2 ^ 7 := by norm_num
  rw [this, Nat.and_two_pow, Nat.testBit_lt_two_pow h]
  simp

theorem and128_ne_zero {x : Nat} (h1 : 128 ≤ x) (h2 : x < 256) : x &&& 128 ≠ 0 := by
  have e : (128 : Nat) = 2 ^ 7 := by norm_num
  rw [e, Nat.and_two_pow]
  have : x.testBit 7 = true := by
    rw [Nat.testBit_to_div_mod]
    simp only [decide_eq_true_eq]
    omega
  simp [this]

/-- C2: for every `v < 2^28` the sync-safe encoding of `v` decodes back
to `v`; the encoder rejects every `v ≥ 2^28` with the invalid-sync-code
error; the decoder rejects every 4-byte input containing a byte with
its top bit set; and on 4 top-bit-clear bytes it returns
`b0*2^21 + b1*2^14 + b2*2^7 + b3`, the value of
`(b0<<21)|(b1<<14)|(b2<<7)|b3`. -/
theorem c2_syncsafe_roundtrip :
    (∀ v : Nat, v < 2 ^ 28 →
      ∃ b, encodeSyncSafeUint32 4 v = .ok b ∧ decodeSyncSafeUint32 b = .ok v) ∧
    (∀ v : Nat, 2 ^ 28 ≤ v → encodeSyncSafeUint32 4 v = .error .badSync) ∧
    (∀ b0 b1 b2 b3 : Nat, b0 < 256 → b1 < 256 → b2 < 256 → b3 < 256 →
      (128 ≤ b0 ∨ 128 ≤ b1 ∨ 128 ≤ b2 ∨ 128 ≤ b3) →
      decodeSyncSafeUint32 [b0, b1, b2, b3] = .error .badSync) ∧
    (∀ b0 b1 b2 b3 : Nat, b0 < 128 → b1 < 128 → b2 < 128 → b3 < 128 →
      decodeSyncSafeUint32 [b0, b1, b2, b3] =
        .ok (b0 * 2 ^ 21 + b1 * 2 ^ 14 + b2 * 2 ^ 7 + b3)) := by
  refine ⟨?_, ?_, ?_, ?_⟩
  · intro v hv
    refine ⟨[v / 2097152 % 128, v / 16384 % 128, v / 128 % 128, v % 128], ?_, ?_⟩
    · simp only [encodeSyncSafeUint32]
      rw [if_neg (by omega)]
      norm_num [List.range_succ]
    · simp only [decodeSyncSafeUint32]
      rw [if_neg ?hneg]
      case hneg =>
        simp only [List.any_cons, List.any_nil, Bool.or_false, Bool.or_eq_true,
          decide_eq_true_eq, not_or, not_not, ne_eq]
        refine ⟨?_, ?_, ?_, ?_⟩ <;> exact and128_eq_zero (by omega)
      simp only [List.foldl]
      congr 1
      omega
  · intro v hv
    simp only [encodeSyncSafeUint32]
    rw [if_pos (by omega)]
  · intro b0 b1 b2 b3 h0 h1 h2 h3 hset
    simp only [decodeSyncSafeUint32]
    rw [if_pos ?hpos]
    case hpos =>
      simp only [List.any_eq_true]
      rcases hset with h | h | h | h
      · exact ⟨b0, by simp, by simpa using and128_ne_zero h h0⟩
      · exact ⟨b1, by simp, by simpa using and128_ne_zero h h1⟩
      · exact ⟨b2, by simp, by simpa using and128_ne_zero h h2⟩
      · exact ⟨b3, by simp, by simpa using and128_ne_zero h h3⟩
  · intro b0 b1 b2 b3 h0 h1 h2 h3
    simp only [decodeSyncSafeUint32]
    rw [if_neg ?hneg2]
    case hneg2 =>
      simp only [List.any_cons, List.any_nil, Bool.or_false, Bool.or_eq_true,
        decide_eq_true_eq, not_or, not_not, ne_eq]
      exact ⟨and128_eq_zero h0, and128_eq_zero h1, and128_eq_zero h2, and128_eq_zero h3⟩
    simp only [List.foldl]
    congr 1
    omega

/-- Witness for C2 at concrete inputs. -/
theorem c2_syncsafe_roundtrip_witness :
    (∃ b, encodeSyncSafeUint32 4 1000000 = .ok b ∧
      decodeSyncSafeUint32 b = .ok 1000000) ∧
    encodeSyncSafeUint32 4 268435456 = .error .badSync ∧
    decodeSyncSafeUint32 [0, 200, 0, 0] = .error .badSync ∧
    decodeSyncSafeUint32 [1, 2, 3, 4] =
      .ok (1 * 2 ^ 21 + 2 * 2 ^ 14 + 3 * 2 ^ 7 + 4) :=
  ⟨c2_syncsafe_roundtrip.1 1000000 (by decide),
   c2_syncsafe_roundtrip.2.1 268435456 (by decide),
   c2_syncsafe_roundtrip.2.2.1 0 200 0 0 (by decide) (by decide) (by decide)
     (by decide) (by decide),
   c2_syncsafe_roundtrip.2.2.2 1 2 3 4 (by decide) (by decide) (by decide)
     (by decide)⟩

/-- C3 as stated is false: on the input `[0xFF, 0x00]` the encoder
inserts nothing (the byte after `0xFF` has a clear top bit), while the
decoder unconditionally strips the `0x00` after the `0xFF`, so the
round trip loses a byte. -/
theorem c3_unsync_roundtrip_counterexample :
    removeUnsyncCodes (addUnsyncCodes [255, 0]) ≠ [255, 0] := by
  decide

/-- C3 amended: for every byte sequence `s` containing no `0xFF`
immediately followed by `0x00`, `removeUnsyncCodes (addUnsyncCodes s) =
s`; and for every `s` the output of `addUnsyncCodes` contains no `0xFF`
followed by a byte `≥ 0x80`. -/
theorem c3_unsync_roundtrip_amended :
    (∀ s : List Nat, noFF00 s → removeUnsyncCodes (addUnsyncCodes s) = s) ∧
    (∀ s : List Nat, noResyncHazard (addUnsyncCodes s)) :=
  ⟨remove_add_of_noFF00, noResyncHazard_add⟩

/-- Witness for C3's amended theorem at concrete inputs. -/
theorem c3_unsync_roundtrip_amended_witness :
    (noFF00 [255, 128, 7] ∧
      removeUnsyncCodes (addUnsyncCodes [255, 128, 7]) = [255, 128, 7]) ∧
    noResyncHazard (addUnsyncCodes [1, 255, 255]) :=
  ⟨⟨by decide, c3_unsync_roundtrip_amended.1 [255, 128, 7] (by decide)⟩,
   c3_unsync_roundtrip_amended.2 [1, 255, 255]⟩

/-- Decode input for the C5 counterexample: a valid 21-byte v2.4 tag
body holding one well-formed `PRIV` frame followed by a frame header
whose sync-safe size is zero, which `decodeFrame` rejects. -/
def c5Input : List Nat :=
  [73, 68, 51, 4, 0, 0, 0, 0, 0, 21] ++
  [80, 82, 73, 86, 0, 0, 0, 1, 0, 0, 0] ++
  [80, 82, 73, 86, 0, 0, 0, 0, 0, 0]

/-- C5 as stated is false: when the second frame of `c5Input` fails
with `ErrInvalidFrameHeader`, the returned tag still carries the size
decoded from the header and the first frame decoded before the error,
so a partially populated `Tag` is observable after the error return. -/
theorem c5_partial_tag_counterexample :
    (decode24 c5Input Tag.empty).2 = some .invalidFrameHeader ∧
    (decode24 c5Input Tag.empty).1.Size = 21 ∧
    (decode24 c5Input Tag.empty).1.Frames.length = 1 := by
  decide

/-- C5 amended: a structural error does abort the decode - the frame
loop stops at the first failing frame and returns its error, appending
no further frames - but the caller-visible tag keeps the fields and
frames populated before the failure. -/
theorem c5_error_abort_amended (tflags fuel : Nat) (t : Tag) (r r' : Reader)
    (e : Err) (hd : decodeFrame24 tflags r = (.error e, r'))
    (hp : e ≠ .paddingEncountered) (hne : r.len ≠ 0) :
    frameLoop24 tflags (fuel + 1) t r = (t, some e) := by
  rw [frameLoop24, if_neg hne, hd]
  cases e <;> simp_all

/-- Witness for C5's amended theorem: a frame whose sync-safe size
field is zero fails immediately, and the loop returns that error with
the tag unchanged. -/
theorem c5_error_abort_amended_witness :
    frameLoop24 0 1 Tag.empty ⟨[80, 82, 73, 86, 0, 0, 0, 0, 0, 0], [], false⟩ =
      (Tag.empty, some .invalidFrameHeader) :=
  c5_error_abort_amended 0 0 Tag.empty
    ⟨[80, 82, 73, 86, 0, 0, 0, 0, 0, 0], [], false⟩ ⟨[], [], false⟩
    .invalidFrameHeader (by decide) (by decide) (by decide)

/-- Decode input for the C7 counterexample: one frame whose ID begins
with a zero byte but is not all-zero, followed by nothing else. -/
def c7Input : List Nat :=
  [73, 68, 51, 4, 0, 0, 0, 0, 0, 11] ++
  [0, 65, 66, 67, 0, 0, 0, 1, 0, 0, 99]

/-- C7 as stated is false: a frame position whose first ID byte is zero
but whose remaining ID bytes are not all zero is decoded as a regular
(unknown) frame - `decodeFrame` treats only four zero ID bytes as
padding - so a frame is emitted and no padding is recorded. -/
theorem c7_padding_counterexample :
    (decode24 c7Input Tag.empty).2 = none ∧
    (decode24 c7Input Tag.empty).1.Padding = 0 ∧
    (decode24 c7Input Tag.empty).1.Frames.length = 1 := by
  decide

/-- C7 amended: a frame position whose four ID bytes are all zero
signals padding: the loop records the remaining buffer length plus four
as the tag's padding, consumes the rest, and terminates without error
and without emitting a frame. -/
theorem c7_padding_amended (tflags fuel : Nat) (t : Tag) (st rest : List Nat) :
    frameLoop24 tflags (fuel + 1) t ⟨0 :: 0 :: 0 :: 0 :: rest, st, false⟩ =
      ({ t with Padding := rest.length + 4 }, none) := by
  simp [frameLoop24, decodeFrame24, Reader.consumeBytes, Reader.len,
    show ¬(rest.length + 1 + 1 + 1 + 1 < 4) from by omega]

/-- Witness for C7's amended theorem on a five-byte padding region. -/
theorem c7_padding_amended_witness :
    frameLoop24 0 1 Tag.empty ⟨[0, 0, 0, 0, 0], [], false⟩ =
      ({ Tag.empty with Padding := 5 }, none) :=
  c7_padding_amended 0 0 Tag.empty [] [0]

/-- The input tag of the C1 bug evaluation: a v2.4 tag containing one
`PRIV` frame with the `Unsynchronized` frame flag set and payload data
`FF 00 E0`. -/
def c1Tag : Tag :=
  { Tag.empty with
    Version := 4
    Frames := [⟨{ FrameHeader.empty with flags := frameFlagUnsynchronized },
                .priv [] [255, 0, 224]⟩] }

/-- The tag as mutated by encoding `c1Tag`. -/
def c1TagEnc : Tag :=
  { c1Tag with
    Size := 13
    Frames := [⟨{ FrameHeader.empty with
                  frameID := idPRIV
                  frameType := idPRIV
                  size := 3
                  flags := frameFlagUnsynchronized },
                .priv [] [255, 0, 224]⟩] }

/-- The wire bytes produced for `c1Tag`: the staged frame payload
`00 FF 00 E0` is shortened to `00 FF E0` by the `removeUnsyncCodes`
call in `encodeFrame`. -/
def c1Wire : List Nat :=
  [73, 68, 51, 4, 0, 0, 0, 0, 0, 13,
   80, 82, 73, 86, 0, 0, 0, 3, 0, 2, 0, 255, 224]

/-- The tag obtained by decoding `c1Wire`: the frame's data comes back
as `FF E0` instead of `FF 00 E0`. -/
def c1Dec : Tag :=
  { Tag.empty with
    Size := 13
    Frames := [⟨{ FrameHeader.empty with
                  frameID := idPRIV
                  frameType := idPRIV
                  size := 3
                  flags := frameFlagUnsynchronized },
                .priv [] [255, 224]⟩] }

/-- C1 evaluation at the failing input: encoding `c1Tag` succeeds and
decoding the result succeeds, but the decoded frames differ from the
encoded tag's frames (the `PRIV` payload lost its `0x00` byte), so the
decode-after-encode round trip does not restore the frames. The cause
is `encodeFrame` calling `removeUnsyncCodes` instead of
`addUnsyncCodes` on the frame-unsynchronization path. -/
theorem c1_tag_roundtrip_bug_eval :
    encode24 c1Tag = .ok (c1TagEnc, c1Wire) ∧
    decode24 c1Wire Tag.empty = (c1Dec, none) ∧
    c1Dec.Frames ≠ c1TagEnc.Frames := by
  decide

/-- C6 evaluation at the failing input: for a `PRIV` frame with the
`Unsynchronized` frame flag set (tag `Unsync` clear) and staged payload
region `00 FF E0`, `encodeFrame` emits
`removeUnsyncCodes [0, 255, 224] = [0, 255, 224]` as the on-wire
payload - which still contains the `FF E0` resynchronization hazard -
whereas the byte-stuffed form required by the claim is
`addUnsyncCodes [0, 255, 224] = [0, 255, 0, 224]`. -/
theorem c6_frame_unsync_bug_eval :
    encodeFrame24 0 ⟨{ FrameHeader.empty with flags := frameFlagUnsynchronized },
        .priv [] [255, 224]⟩ =
      .ok (⟨{ FrameHeader.empty with
              frameID := idPRIV
              frameType := idPRIV
              size := 3
              flags := frameFlagUnsynchronized },
            .priv [] [255, 224]⟩,
           [80, 82, 73, 86, 0, 0, 0, 3, 0, 2, 0, 255, 224]) ∧
    removeUnsyncCodes [0, 255, 224] = [0, 255, 224] ∧
    addUnsyncCodes [0, 255, 224] = [0, 255, 0, 224] ∧
    ([0, 255, 224] : List Nat) ≠ addUnsyncCodes [0, 255, 224] := by
  decide

/-- C8: for each bounded byte field, an on-wire value outside the bound
makes the v2.4 frame decode fail with the table's kind-specific error:
`Encoding` (0..3) via a text frame, `PictureType` (0..20) via `APIC`,
`TimeStampFormat` (1..2) and `LyricContentType` (0..8) via `SYLT`, and
`GroupID` / `EncryptMethod` (0x80..0xF0) via the frame extra-header
checks of `decodeFrame`. -/
theorem c8_bounds_errors :
    (∀ v : Nat, 3 < v →
      (decodeFrame24 0 ⟨[84, 73, 84, 50, 0, 0, 0, 2, 0, 0, v, 0], [], false⟩).1 =
        .error .invalidEncoding) ∧
    (∀ v : Nat, 20 < v →
      (decodeFrame24 0 ⟨[65, 80, 73, 67, 0, 0, 0, 4, 0, 0, 0, 0, v, 0], [], false⟩).1 =
        .error .invalidPictureType) ∧
    (∀ v : Nat, v = 0 ∨ 2 < v →
      (decodeFrame24 0
          ⟨[83, 89, 76, 84, 0, 0, 0, 7, 0, 0, 0, 101, 110, 103, v, 0, 0], [], false⟩).1 =
        .error .invalidTimeStampFormat) ∧
    (∀ v : Nat, 8 < v →
      (decodeFrame24 0
          ⟨[83, 89, 76, 84, 0, 0, 0, 7, 0, 0, 0, 101, 110, 103, 1, v, 0], [], false⟩).1 =
        .error .invalidLyricContentType) ∧
    (∀ v : Nat, v < 128 ∨ 240 < v →
      (decodeFrame24 0 ⟨[84, 73, 84, 50, 0, 0, 0, 2, 0, 64, v, 0], [], false⟩).1 =
        .error .invalidGroupID) ∧
    (∀ v : Nat, v < 128 ∨ 240 < v →
      (decodeFrame24 0 ⟨[84, 73, 84, 50, 0, 0, 0, 2, 0, 4, v, 0], [], false⟩).1 =
        .error .invalidEncryptMethod) := by
  refine ⟨?_, ?_, ?_, ?_, ?_, ?_⟩ <;> intro v h <;>
    simp +decide [decodeFrame24, Reader.consumeBytes, Reader.consumeByte,
      Reader.consumeAll, Reader.consumeIntoNewReader, Reader.replaceBuffer,
      Reader.len, Reader.consumeNextString, Reader.consumeFixedLengthString,
      decodeSyncSafeUint32, frameFlags24, FlagMap.decodeFlags, scanFrame24,
      scanUint8Bounded, isTextFrameID, boundsMap24, idTXXX, idPRIV, idAPIC,
      idSYLT, idGRID, idENCR, frameFlagUnsynchronized, frameFlagCompressed,
      frameFlagHasGroupID, frameFlagEncrypted, frameFlagHasDataLength,
      tagFlagUnsync, List.lookup, splitAtZero] <;>
    first
      | simp [h]
      | (rcases h with h | h <;> simp [h])

/-- Witness for C8 at concrete out-of-range field values. -/
theorem c8_bounds_errors_witness :
    (decodeFrame24 0 ⟨[84, 73, 84, 50, 0, 0, 0, 2, 0, 0, 9, 0], [], false⟩).1 =
      .error .invalidEncoding ∧
    (decodeFrame24 0 ⟨[65, 80, 73, 67, 0, 0, 0, 4, 0, 0, 0, 0, 21, 0], [], false⟩).1 =
      .error .invalidPictureType ∧
    (decodeFrame24 0
        ⟨[83, 89, 76, 84, 0, 0, 0, 7, 0, 0, 0, 101, 110, 103, 3, 0, 0], [], false⟩).1 =
      .error .invalidTimeStampFormat ∧
    (decodeFrame24 0
        ⟨[83, 89, 76, 84, 0, 0, 0, 7, 0, 0, 0, 101, 110, 103, 1, 9, 0], [], false⟩).1 =
      .error .invalidLyricContentType ∧
    (decodeFrame24 0 ⟨[84, 73, 84, 50, 0, 0, 0, 2, 0, 64, 127, 0], [], false⟩).1 =
      .error .invalidGroupID ∧
    (decodeFrame24 0 ⟨[84, 73, 84, 50, 0, 0, 0, 2, 0, 4, 241, 0], [], false⟩).1 =
      .error .invalidEncryptMethod :=
  ⟨c8_bounds_errors.1 9 (by decide),
   c8_bounds_errors.2.1 21 (by decide),
   c8_bounds_errors.2.2.1 3 (by decide),
   c8_bounds_errors.2.2.2.1 9 (by decide),
   c8_bounds_errors.2.2.2.2.1 127 (by decide),
   c8_bounds_errors.2.2.2.2.2 241 (by decide)⟩

/-- C9: `Tag.ReadFrom` issues a single `Read` for the 10-byte header;
whenever that call delivers fewer than 10 bytes it fails with
`ErrInvalidTag`, whatever the rest of the source could supply. -/
theorem c9_short_header_read
    (dec : Codec → Bool → List (List Nat) → Nat × Option Err)
    (chunks : List (List Nat)) (h : (chunks.headD []).length < 10) :
    readFrom dec chunks =
      .ret (chunks.headD []).length (some .invalidTag) := by
  have h' : (chunks.headD []).length ⊓ 10 = (chunks.headD []).length :=
    Nat.min_eq_left (Nat.le_of_lt h)
  simp_all [readFrom]

/-- Witness for C9: a source whose first read yields two bytes fails
with the invalid-tag error even though later reads could supply the
remaining header bytes. -/
theorem c9_short_header_read_witness :
    readFrom (fun _ _ _ => (0, none))
        [[73, 68], [51, 4, 0, 0, 0, 0, 0, 0]] =
      .ret 2 (some .invalidTag) :=
  c9_short_header_read (fun _ _ _ => (0, none))
    [[73, 68], [51, 4, 0, 0, 0, 0, 0, 0]] (by decide)

/-- C10: the `getCodec` panic is unreachable from `ReadFrom` - for
every codec continuation and every byte source, `ReadFrom` never
panics, because any version byte outside 2..4 is rejected with
`ErrInvalidVersion` before the codec is selected - while `WriteTo`
selects the codec without validating `t.Version`, so it panics for
every tag whose version is not 2, 3 or 4. -/
theorem c10_codec_panic :
    (∀ (dec : Codec → Bool → List (List Nat) → Nat × Option Err)
       (chunks : List (List Nat)), readFrom dec chunks ≠ .panicked) ∧
    (∀ (enc : Codec → Tag → Except Err (Nat × List Nat)) (t : Tag),
       t.Version < 2 ∨ 4 < t.Version → writeTo enc t = .panicked) := by
  constructor
  · intro dec chunks
    simp only [readFrom]
    split
    · simp
    split
    · simp
    split
    · simp
    split
    · simp
    split
    · simp
    split
    case _ version hver _ _ heq =>
      exfalso
      rw [getCodec] at heq
      split_ifs at heq
      omega
    · simp
  · intro enc t h
    have h2 : t.Version ≠ 2 := by omega
    have h3 : t.Version ≠ 3 := by omega
    have h4 : t.Version ≠ 4 := by omega
    unfold writeTo getCodec
    simp [h2, h3, h4]

/-- Witness for C10: `ReadFrom` does not panic on a concrete source,
and `WriteTo` panics on a concrete tag whose version is 7. -/
theorem c10_codec_panic_witness :
    readFrom (fun _ _ _ => (0, none)) [[73, 68, 51, 4, 0, 0, 0, 0, 0, 0]] ≠
      .panicked ∧
    (({ Tag.empty with Version := 7 } : Tag).Version < 2 ∨
      4 < ({ Tag.empty with Version := 7 } : Tag).Version) ∧
    writeTo (fun _ _ => .error .invalidTag) { Tag.empty with Version := 7 } =
      .panicked :=
  ⟨c10_codec_panic.1 (fun _ _ _ => (0, none)) [[73, 68, 51, 4, 0, 0, 0, 0, 0, 0]],
   by decide,
   c10_codec_panic.2 (fun _ _ => .error .invalidTag)
     { Tag.empty with Version := 7 } (by decide)⟩

/-! Bit-mask helper lemmas for the CRC claim (C4). -/

theorem and_mask_of_subset {x m m' : Nat} (hm : m' &&& m = m)
    (h : x &&& m ≠ 0) : x &&& m' ≠ 0 := by
  intro hc
  apply h
  calc x &&& m = x &&& (m' &&& m) := by rw [hm]
    _ = (x &&& m') &&& m := by rw [Nat.land_assoc]
    _ = 0 &&& m := by rw [hc]
    _ = 0 := Nat.zero_and m

theorem or_eq_zero_left {a b : Nat} (h : a ||| b = 0) : a = 0 := by
  apply Nat.eq_of_testBit_eq
  intro k
  have hk := congrArg (fun n => n.testBit k) h
  simp only [Nat.testBit_lor, Nat.zero_testBit, Bool.or_eq_false_iff] at hk
  simp [hk.1]

theorem or_and_ne_zero {x b m : Nat} (h : x &&& m ≠ 0) :
    (x ||| b) &&& m ≠ 0 := by
  intro hc
  apply h
  rw [Nat.and_distrib_right] at hc
  exact or_eq_zero_left hc

/-- C4: (encode) whenever a tag with `HasCRC` is successfully encoded,
the tag's recomputed CRC equals CRC-32/IEEE over the encoded
frames-plus-padding region, and the wire bytes embed the extended
header built around exactly that CRC value (its 5 sync-safe CRC bytes
back-patched at `v24.go` lines 407-412); (decode) when the pre-frame
phases succeed and `HasCRC` is set, the decode proceeds past CRC
validation to the frame loop if and only if the stored CRC equals
CRC-32/IEEE over the remaining (frames + padding) bytes, failing with
`ErrFailedCRC` otherwise. -/
theorem c4_crc_correctness :
    (∀ t t' wire, t.Flags &&& tagFlagHasCRC ≠ 0 →
      encode24 t = .ok (t', wire) →
      ∃ fs fb, encodeFrames24 t'.Flags t.Frames = .ok (fs, fb) ∧
        t'.CRC = crc32 (fb ++ List.replicate t'.Padding 0) ∧
        wire = [73, 68, 51, 4, 0, headerFlags24.encodeFlags t'.Flags] ++
          syncSafeOrZeros 4 t'.Size ++
          (if t'.Flags &&& tagFlagUnsync ≠ 0 then
            addUnsyncCodes (exHeader24 t'.Flags t.Restrictions t'.CRC ++ fb ++
              List.replicate t'.Padding 0)
          else exHeader24 t'.Flags t.Restrictions t'.CRC ++ fb ++
            List.replicate t'.Padding 0)) ∧
    (∀ t0 r0 t r, preFrames24 t0 r0 = (t, r, none) →
      t.Flags &&& tagFlagHasCRC ≠ 0 →
      (crc32 r.bytes = t.CRC →
        codec24Decode t0 r0 = frameLoop24 t.Flags (r.len + 1) t r) ∧
      (crc32 r.bytes ≠ t.CRC →
        codec24Decode t0 r0 = (t, some .failedCRC))) := by
  constructor
  · intro t t' wire hcrc henc
    have hmask : t.Flags &&&
        (tagFlagHasCRC ||| tagFlagHasRestrictions ||| tagFlagIsUpdate) ≠ 0 :=
      and_mask_of_subset (by decide) hcrc
    have hcrc' : (t.Flags ||| tagFlagExtended) &&& tagFlagHasCRC ≠ 0 :=
      or_and_ne_zero hcrc
    rw [encode24] at henc
    rw [if_pos hmask] at henc
    rcases hef : encodeFrames24 (t.Flags ||| tagFlagExtended) t.Frames with e | ⟨fs, fb⟩
    · rw [hef] at henc
      exact Except.noConfusion henc
    · rw [hef] at henc
      simp only [Except.ok.injEq, Prod.mk.injEq] at henc
      obtain ⟨ht', hwire⟩ := henc
      refine ⟨fs, fb, ?_, ?_, ?_⟩
      · rw [← ht']
        exact hef
      · rw [← ht']
        simp only
        rw [if_pos hcrc']
      · rw [← hwire, ← ht']
        simp only
        rw [if_pos hcrc']
  · intro t0 r0 t r hpre hcrc
    constructor
    · intro heq
      rw [codec24Decode, hpre]
      simp only
      rw [if_neg (by simp [heq])]
    · intro hne
      rw [codec24Decode, hpre]
      simp only
      rw [if_pos ⟨hcrc, hne⟩]

/-- Witness for C4: (encode) a concrete tag with `HasCRC` whose
encoding embeds `crc32 [] = 0` as the extended-header CRC; (decode) a
concrete wire tag with a stored CRC matching / not matching the empty
frames region. -/
theorem c4_crc_correctness_witness :
    (({ Tag.empty with Version := 4, Flags := tagFlagHasCRC } : Tag).Flags &&&
        tagFlagHasCRC ≠ 0 ∧
      ∃ fs fb,
        encodeFrames24 34 [] = .ok (fs, fb) ∧
        (0 : Nat) = crc32 (fb ++ List.replicate 0 0) ∧
        [73, 68, 51, 4, 0, 64, 0, 0, 0, 12, 0, 0, 0, 12, 1, 32, 5, 0, 0, 0, 0, 0] =
          [73, 68, 51, 4, 0, headerFlags24.encodeFlags 34] ++
            syncSafeOrZeros 4 12 ++
            (if (34 : Nat) &&& tagFlagUnsync ≠ 0 then
              addUnsyncCodes (exHeader24 34 0 0 ++ fb ++ List.replicate 0 0)
            else exHeader24 34 0 0 ++ fb ++ List.replicate 0 0)) ∧
    (codec24Decode Tag.empty
        ⟨[73, 68, 51, 4], [0, 64, 0, 0, 0, 12, 0, 0, 0, 12, 1, 32, 5, 0, 0, 0, 0, 0],
         false⟩ =
      frameLoop24 34 1
        { Tag.empty with Flags := 34, Size := 12, CRC := 0 }
        ⟨[], [], false⟩) ∧
    (codec24Decode Tag.empty
        ⟨[73, 68, 51, 4], [0, 64, 0, 0, 0, 12, 0, 0, 0, 12, 1, 32, 5, 0, 0, 0, 0, 1],
         false⟩ =
      ({ Tag.empty with Flags := 34, Size := 12, CRC := 1 }, some .failedCRC)) := by
  refine ⟨⟨by decide, ?_⟩, ?_, ?_⟩
  · have h := c4_crc_correctness.1
      { Tag.empty with Version := 4, Flags := tagFlagHasCRC }
      { Tag.empty with Version := 4, Flags := 34, Size := 12 }
      [73, 68, 51, 4, 0, 64, 0, 0, 0, 12, 0, 0, 0, 12, 1, 32, 5, 0, 0, 0, 0, 0]
      (by decide) (by decide)
    exact h
  · have h := (c4_crc_correctness.2 Tag.empty
      ⟨[73, 68, 51, 4], [0, 64, 0, 0, 0, 12, 0, 0, 0, 12, 1, 32, 5, 0, 0, 0, 0, 0],
       false⟩
      { Tag.empty with Flags := 34, Size := 12, CRC := 0 }
      ⟨[], [], false⟩ (by decide) (by decide)).1 (by decide)
    exact h
  · have h := (c4_crc_correctness.2 Tag.empty
      ⟨[73, 68, 51, 4], [0, 64, 0, 0, 0, 12, 0, 0, 0, 12, 1, 32, 5, 0, 0, 0, 0, 1],
       false⟩
      { Tag.empty with Flags := 34, Size := 12, CRC := 1 }
      ⟨[], [], false⟩ (by decide) (by decide)).2 (by decide)
    exact h
